import Mathlib

/-!
Verification of the blinks Action resolution core
(`packages/blinks-core/src/api/Action/Action.ts`) and the blink-list hook
(`packages/blinks-core/src/hooks/useBlinkList.ts`), as a shallow embedding:
pure TypeScript logic becomes Lean functions; network effects become explicit
response arguments; thrown exceptions become `Except.error`; promise-returning
functions that can resolve to `null` become `Option`-returning functions.
-/

set_option autoImplicit false

namespace Blinks

/-- The `type` discriminant of a manifest (`"action" | "completed"`). -/
inductive ActionType where
  | action
  | completed
deriving DecidableEq, Repr

/-- Linked-action type tags from the actions spec
(`'transaction' | 'message' | 'post' | 'external-link'`). -/
inductive LinkedActionType where
  | transaction
  | message
  | post
  | externalLink
deriving DecidableEq, Repr

/-- Declared parameter types (`ActionParameterType` in the actions spec). -/
inductive ActionParameterType where
  | text
  | email
  | url
  | number
  | date
  | datetimeLocal
  | checkbox
  | radio
  | textarea
  | select
deriving DecidableEq, Repr

/-- A declared action parameter (`TypedActionParameter`), projected to the
fields the Action core reads: its name and its optional declared `type`. -/
structure TypedActionParameter where
  name : String
  type : Option ActionParameterType
deriving DecidableEq, Repr

/-- One entry of a manifest's `links.actions` array (`LinkedAction`):
href, label, optional type tag, optional parameter list. -/
structure LinkedAction where
  href : String
  label : String
  type : Option LinkedActionType
  parameters : Option (List TypedActionParameter)
deriving DecidableEq, Repr

/-- A manifest (`NextAction` / `ActionGetResponse` shape). `links` models
`links?.actions`: `none` when `links` is absent or `links.actions` is absent
(the two are indistinguishable to the code, which reads `_data.links?.actions`),
`some l` when the array `l` is present. `error` models `error?.message`. -/
structure NextAction where
  type : ActionType
  title : String
  description : String
  icon : String
  label : String
  disabled : Option Bool
  error : Option String
  links : Option (List LinkedAction)
deriving DecidableEq, Repr

/-- Experimental live-data configuration (`LiveData`). -/
structure LiveData where
  enabled : Bool
  delayMs : Option Nat
deriving DecidableEq, Repr

/-- Experimental feature block (`ExperimentalFeatures`). -/
structure ExperimentalFeatures where
  liveData : Option LiveData
deriving DecidableEq, Repr

/-- `Required<LiveData>`: the fully-defaulted view returned by
`liveData_experimental`. -/
structure RequiredLiveData where
  enabled : Bool
  delayMs : Nat
deriving DecidableEq, Repr

/-- Header-derived action metadata (`ActionMetadata`). -/
structure ActionMetadata where
  blockchainIds : Option (List String)
  version : Option String
deriving DecidableEq, Repr

/-- Chain lineage (`ActionChainMetadata`):
`{isChained: false}` or `{isChained: true, isInline}`. -/
inductive ActionChainMetadata where
  | notChained
  | chained (isInline : Bool)
deriving DecidableEq, Repr

/-- A support verdict (`{isSupported, message?}`). -/
structure SupportResult where
  isSupported : Bool
  message : Option String
deriving DecidableEq, Repr

/-- An adapter handle (`ActionAdapter`); opaque to the Action core, which only
passes it through to the support strategy. -/
def ActionAdapter := String

/-- A support strategy (`ActionSupportStrategy`), modelled by its observable
behaviour on an adapter: it either resolves to a verdict (`Except.ok`) or
throws (`Except.error`). The TypeScript strategy also receives the action
itself; storing a function of `Action` inside `Action` is not possible, so the
action argument is absorbed into the strategy value. -/
def ActionSupportStrategy := ActionAdapter → Except String SupportResult

/-- Modelled from the spec: the fixed baseline blockchain-id list
`BASELINE_ACTION_BLOCKCHAIN_IDS` from `action-supportability.ts` (not under
src/). The concrete value is immaterial to every claim. -/
def BASELINE_ACTION_BLOCKCHAIN_IDS : List String := ["solana:mainnet"]

/-- Modelled from the spec: the fixed baseline version `BASELINE_ACTION_VERSION`
from `action-supportability.ts` (not under src/). The concrete value is
immaterial to every claim. -/
def BASELINE_ACTION_VERSION : String := "2.2"

/-- The multi-value parameter type set (`MULTI_VALUE_TYPES`). -/
def MULTI_VALUE_TYPES : List ActionParameterType := [.checkbox]

/-- The minimum live-data delay (`EXPERIMENTAL_LIVE_DATA_DEFAULT_DELAY_MS`). -/
def EXPERIMENTAL_LIVE_DATA_DEFAULT_DELAY_MS : Nat := 1000

/-- Whether `s` starts with `p`: a kernel-reducible model of
`String.startsWith` (JavaScript `String.prototype.startsWith`). -/
def strStartsWith (s p : String) : Bool :=
  p.data.isPrefixOf s.data

/-- Splitting a character list at the first occurrence of `://`, into the
scheme part and the remainder. -/
def schemeSplit : List Char → Option (List Char × List Char)
  | [] => none
  | ':' :: '/' :: '/' :: rest => some ([], rest)
  | c :: cs =>
    match schemeSplit cs with
    | none => none
    | some (pre, post) => some (c :: pre, post)

/-- The host part of a character list: everything up to the first `/`. -/
def hostChars : List Char → List Char
  | [] => []
  | c :: cs => if c = '/' then [] else c :: hostChars cs

/-- The origin of a URL, modelling the `new URL(url).origin` getter the source
uses: scheme, `://`, and the host part up to the first `/` of the path. A
string with no `://` is returned unchanged (the platform constructor would
throw on it; no claim exercises that case). -/
def urlOrigin (url : String) : String :=
  match schemeSplit url.data with
  | none => url
  | some (scheme, rest) =>
    String.mk (scheme ++ ':' :: '/' :: '/' :: hostChars rest)

/-- An action component (`AbstractActionComponent` and its four concrete
variants). The TypeScript classes carry a back-reference to the owning
`Action`; the embedding drops it (it creates a reference cycle and no claim
reads it). `ButtonActionComponent` holds no parameter list. -/
inductive AbstractActionComponent where
  | button (label href : String) (type : LinkedActionType)
  | singleValue (label href : String) (type : LinkedActionType)
      (parameters : List TypedActionParameter)
  | multiValue (label href : String) (type : LinkedActionType)
      (parameters : List TypedActionParameter)
  | form (label href : String) (type : LinkedActionType)
      (parameters : List TypedActionParameter)
deriving DecidableEq, Repr

/-- The target href of a component. -/
def AbstractActionComponent.href : AbstractActionComponent → String
  | .button _ href _ => href
  | .singleValue _ href _ _ => href
  | .multiValue _ href _ _ => href
  | .form _ href _ _ => href

/-- The component factory (`componentFactory` in `Action.ts`): no or empty
parameters give a Button; two or more give a Form; exactly one gives a
MultiValue when its declared type is in `MULTI_VALUE_TYPES` and a SingleValue
when its type is absent or not multi-value. -/
def componentFactory (label href : String) (type : LinkedActionType)
    (parameters : Option (List TypedActionParameter)) : AbstractActionComponent :=
  match parameters with
  | none => .button label href type
  | some [] => .button label href type
  | some [parameter] =>
    match parameter.type with
    | none => .singleValue label href type [parameter]
    | some t =>
      if t ∈ MULTI_VALUE_TYPES then .multiValue label href type [parameter]
      else .singleValue label href type [parameter]
  | some parameters => .form label href type parameters

/-- An `Action` instance: the private fields of the TypeScript class, with
`_actions` the component list computed by the constructor. -/
structure Action where
  _url : String
  _data : NextAction
  _metadata : ActionMetadata
  _supportStrategy : ActionSupportStrategy
  _chainMetadata : ActionChainMetadata
  _id : Option String
  _experimental : Option ExperimentalFeatures
  _actions : List AbstractActionComponent

/-- The private `Action` constructor: stores the fields and derives `_actions`.
When the manifest is `completed` or has no `links?.actions` array it falls back
to a single placeholder Button targeting the source URL; otherwise it maps each
linked action through `componentFactory`, prefixing the source URL's origin to
hrefs that do not start with `http`. Note that a present-but-empty
`links.actions` array is truthy in JavaScript, so it takes the map branch. -/
def mkAction (url : String) (data : NextAction) (metadata : ActionMetadata)
    (supportStrategy : ActionSupportStrategy) (chainMetadata : ActionChainMetadata)
    (id : Option String) (experimental : Option ExperimentalFeatures) : Action :=
  let actions : List AbstractActionComponent :=
    if data.type = .completed ∨ data.links = none then
      [.button data.label url .transaction]
    else
      (data.links.getD []).map (fun action =>
        let href := if strStartsWith action.href "http" then action.href
                    else urlOrigin url ++ action.href
        componentFactory action.label href (action.type.getD .transaction)
          action.parameters)
  { _url := url, _data := data, _metadata := metadata,
    _supportStrategy := supportStrategy, _chainMetadata := chainMetadata,
    _id := id, _experimental := experimental, _actions := actions }

/-- The `liveData_experimental` getter: `null` when no live-data block is
present (`!liveData`); otherwise the declared `enabled` flag together with a
delay of `max(delayMs, 1000)` when `delayMs` is truthy (present and non-zero)
and `1000` otherwise. -/
def Action.liveData_experimental (a : Action) : Option RequiredLiveData :=
  match a._experimental with
  | none => none
  | some experimental =>
    match experimental.liveData with
    | none => none
    | some liveData =>
      some { enabled := liveData.enabled,
             delayMs :=
               match liveData.delayMs with
               | none => EXPERIMENTAL_LIVE_DATA_DEFAULT_DELAY_MS
               | some d =>
                 if d ≠ 0 then max d EXPERIMENTAL_LIVE_DATA_DEFAULT_DELAY_MS
                 else EXPERIMENTAL_LIVE_DATA_DEFAULT_DELAY_MS }

/-- The `id` getter. -/
def Action.id (a : Action) : Option String := a._id

/-- The `isChained` getter. -/
def Action.isChained (a : Action) : Bool :=
  match a._chainMetadata with
  | .notChained => false
  | .chained _ => true

/-- The `isInline` getter (`false` by convention when not chained). -/
def Action.isInline (a : Action) : Bool :=
  match a._chainMetadata with
  | .notChained => false
  | .chained isInline => isInline

/-- The `type` getter. -/
def Action.type (a : Action) : ActionType := a._data.type

/-- The `url` getter. -/
def Action.url (a : Action) : String := a._url

/-- The `actions` getter. -/
def Action.actions (a : Action) : List AbstractActionComponent := a._actions

/-- The `disabled` getter (`?? false`). -/
def Action.disabled (a : Action) : Bool := a._data.disabled.getD false

/-- The `error` getter (`error?.message ?? null`). -/
def Action.error (a : Action) : Option String := a._data.error

/-- The `metadata` getter: applies the baseline fallback lazily at read time. -/
def Action.metadata (a : Action) : ActionMetadata :=
  { blockchainIds :=
      some (a._metadata.blockchainIds.getD BASELINE_ACTION_BLOCKCHAIN_IDS),
    version := some (a._metadata.version.getD BASELINE_ACTION_VERSION) }

/-- The `isSupported` method: delegates to the bound support strategy and
converts a thrown exception into a fixed negative verdict. -/
def Action.isSupported (a : Action) (adapter : ActionAdapter) : SupportResult :=
  match a._supportStrategy adapter with
  | .ok result => result
  | .error _ =>
    { isSupported := false,
      message :=
        some "Failed to check supportability, please contact your Blink client provider." }

/-- The `withUpdate` method: a copy through the private constructor with only
the support strategy optionally replaced (`update.supportStrategy ?? this._supportStrategy`). -/
def Action.withUpdate (a : Action) (supportStrategy : Option ActionSupportStrategy) :
    Action :=
  mkAction a._url a._data a._metadata (supportStrategy.getD a._supportStrategy)
    a._chainMetadata a._id a._experimental

/-- Response headers the Action core consumes
(`x-blockchain-ids`, `x-action-version`). -/
structure ResponseHeaders where
  xBlockchainIds : Option String
  xActionVersion : Option String
deriving DecidableEq, Repr

/-- Whitespace predicate for `trimString`. -/
def isWhitespaceChar (c : Char) : Bool :=
  c = ' ' || c = '\t' || c = '\n' || c = '\r'

/-- A kernel-reducible model of `String.prototype.trim`: drops leading and
trailing whitespace. -/
def trimString (s : String) : String :=
  String.mk (((s.data.dropWhile isWhitespaceChar).reverse.dropWhile
    isWhitespaceChar).reverse)

/-- A kernel-reducible model of `String.prototype.split(',')`: the groups of
characters between commas (one group, possibly empty, per comma-separated
field). -/
def splitOnComma : List Char → List (List Char)
  | [] => [[]]
  | c :: cs =>
    if c = ',' then [] :: splitOnComma cs
    else
      match splitOnComma cs with
      | [] => [[c]]
      | group :: groups => (c :: group) :: groups

/-- Header extraction (`getActionMetadata` in `Action.ts`): comma-split and
trim the blockchain-ids header, trim the version header; each is `undefined`
when its header is absent. -/
def getActionMetadata (headers : ResponseHeaders) : ActionMetadata :=
  { blockchainIds :=
      headers.xBlockchainIds.map
        (fun s => (splitOnComma s.data).map (fun group => trimString (String.mk group))),
    version := headers.xActionVersion.map trimString }

/-- Modelled from the spec: the proxying capability `proxify(url) -> {url, headers}`
from `packages/blinks-core/src/utils` (not under src/), consumed as a black box.
Modelled as the identity proxy with no extra headers; no claim depends on the
proxy mapping. -/
structure ProxiedUrl where
  url : String
  headers : List (String × String)

/-- Modelled from the spec: identity `proxify` (see `ProxiedUrl`). -/
def proxify (url : String) : ProxiedUrl := { url := url, headers := [] }

/-- Modelled from the spec: `isUrlSameOrigin(originA, hrefB) -> bool` from
`packages/blinks-core/src/utils/security.ts` (not under src/): whether the
target href's origin matches the given origin; a relative href (one that does
not start with `http`) resolves against that origin and so is same-origin. -/
def isUrlSameOrigin (origin href : String) : Bool :=
  if strStartsWith href "http" then urlOrigin href == origin else true

/-- A next-step link (`NextActionLink`): inline with an embedded manifest, or
remote (`post`) with an href. -/
inductive NextActionLink where
  | inline (action : NextAction)
  | post (href : String)
deriving DecidableEq, Repr

/-- The response to the chain POST request: `ok` status flag, consumed headers,
and the JSON body parsed as the next manifest. -/
structure ChainHttpResponse where
  ok : Bool
  headers : ResponseHeaders
  body : NextAction
deriving DecidableEq, Repr

/-- The POST request `chain` issues through the proxy. -/
structure PostRequest where
  url : String
  body : Option String
deriving DecidableEq, Repr

/-- The `chain` method. Effects are made explicit: `resp` is the environment's
response to the POST request (consulted only on the remote path), `freshId` is
the value produced by `nanoid()`, and the first component of the result lists
the network requests issued (empty on the inline and cross-origin paths). The
TypeScript method returns `Promise<Action | null>` and never throws; here it is
a total function into `Option Action`, and `a` itself is never modified (the
embedding is pure). Inline links yield a chained inline copy built from the
embedded manifest and the `metadata` getter's view; remote links are rejected
with `null` when cross-origin or when the response is not ok. -/
def Action.chain (a : Action) (next : NextActionLink) (chainData : Option String)
    (resp : ChainHttpResponse) (freshId : String) :
    List PostRequest × Option Action :=
  match next with
  | .inline action =>
    ([], some (mkAction a.url action a.metadata a._supportStrategy
      (.chained true) (some freshId) none))
  | .post nextHref =>
    let baseOrigin := urlOrigin a.url
    if ¬ isUrlSameOrigin baseOrigin nextHref then
      ([], none)
    else
      let href := if strStartsWith nextHref "http" then nextHref
                  else baseOrigin ++ nextHref
      let request : PostRequest := { url := (proxify href).url, body := chainData }
      if ¬ resp.ok then
        ([request], none)
      else
        ([request], some (mkAction href resp.body (getActionMetadata resp.headers)
          a._supportStrategy (.chained false) (some freshId) none))

/-- The static `hydrate` constructor: builds an unchained Action directly from
caller-supplied manifest data, with a fresh id and no experimental block. -/
def Action.hydrate (url : String) (data : NextAction) (metadata : ActionMetadata)
    (supportStrategy : ActionSupportStrategy) (freshId : String) : Action :=
  mkAction url data metadata supportStrategy .notChained (some freshId) none

/-- The GET-manifest payload (`ExtendedActionGetResponse`): the manifest fields
plus the optional `dialectExperimental` block. -/
structure ExtendedActionGetResponse where
  response : NextAction
  dialectExperimental : Option ExperimentalFeatures
deriving DecidableEq, Repr

/-- The response to the initial GET fetch. -/
structure GetHttpResponse where
  ok : Bool
  headers : ResponseHeaders
  body : ExtendedActionGetResponse
deriving DecidableEq, Repr

/-- The private static `_fetch`: throws (`Except.error`) on a non-ok response;
otherwise builds the Action from the payload with the `type` field overwritten
to `'action'` (`{ ...data, type: 'action' }`), header-extracted metadata, and
the payload's `dialectExperimental` block. `resp` is the environment's response
to the GET request. -/
def Action.fetchImpl (apiUrl : String) (supportStrategy : ActionSupportStrategy)
    (chainMetadata : ActionChainMetadata) (id : Option String)
    (resp : GetHttpResponse) : Except String Action :=
  if ¬ resp.ok then
    .error ("Failed to fetch action " ++ (proxify apiUrl).url ++ ", action url: "
      ++ apiUrl)
  else
    .ok (mkAction apiUrl { resp.body.response with type := .action }
      (getActionMetadata resp.headers) supportStrategy chainMetadata id
      resp.body.dialectExperimental)

/-- The static `fetch` entry point: `_fetch` with `{isChained: false}` and a
fresh `nanoid()`. -/
def Action.fetch (apiUrl : String) (supportStrategy : ActionSupportStrategy)
    (resp : GetHttpResponse) (freshId : String) : Except String Action :=
  Action.fetchImpl apiUrl supportStrategy .notChained (some freshId) resp

/-- The `refresh` method: re-fetches the same url with the same strategy, chain
metadata and id. -/
def Action.refresh (a : Action) (resp : GetHttpResponse) : Except String Action :=
  Action.fetchImpl a.url a._supportStrategy a._chainMetadata a._id resp

/-- One entry of the blink list (`BlinkListEntry` in `useBlinkList.ts`). -/
structure BlinkListEntry where
  id : String
  title : String
  description : String
  blinkUrl : String
  metadataUrl : Option String
  image : String
  icon : Option String
deriving DecidableEq, Repr

/-- The blink list payload (`BlinkList`). -/
structure BlinkList where
  entries : List BlinkListEntry
deriving DecidableEq, Repr

/-- The registry's response as `fetchBlinkList` observes it: the `ok` flag, the
numeric status, and the outcome of `response.json()` (which may itself throw). -/
structure BlinkListHttpResponse where
  ok : Bool
  status : Nat
  jsonBody : Except String BlinkList
deriving Repr

/-- The `fetchBlinkList` function of `useBlinkList.ts`. `network` is the
outcome of the `fetch` call: `Except.error` when the request itself throws.
Everything runs inside one `try`: a thrown fetch, a non-ok response, and a
throwing `response.json()` all resolve to `{entries: []}`; the function is
total, so the promise it models never rejects. -/
def fetchBlinkList (network : Except String BlinkListHttpResponse) : BlinkList :=
  match network with
  | .error _ => { entries := [] }
  | .ok resp =>
    if ¬ resp.ok then { entries := [] }
    else
      match resp.jsonBody with
      | .error _ => { entries := [] }
      | .ok list => list

/-- The `data` field `useBlinkList` returns (`data?.entries ?? []`), given the
hook's current state. -/
def useBlinkListData (data : Option BlinkList) : List BlinkListEntry :=
  (data.map BlinkList.entries).getD []

/-- Scheme characters after the first (RFC 3986: letters, digits, `+`, `-`, `.`). -/
def isSchemeChar (c : Char) : Bool :=
  c.isAlpha || c.isDigit || c = '+' || c = '-' || c = '.'

/-- Stated from the specification's words, for comparison against the source's
`startsWith('http')` check: whether a string starts with a URI scheme
(RFC 3986: a letter, then scheme characters, then a colon). -/
def startsWithUriScheme (s : String) : Bool :=
  match s.data with
  | [] => false
  | c :: cs => c.isAlpha && ((cs.dropWhile isSchemeChar).headD ' ' == ':')

/-- A sample support strategy that always resolves to a positive verdict. -/
def sampleOkStrategy : ActionSupportStrategy :=
  fun _ => .ok { isSupported := true, message := none }

/-- A sample support strategy that always throws. -/
def sampleThrowingStrategy : ActionSupportStrategy :=
  fun _ => .error "strategy blew up"

/-- A sample adapter handle. -/
def sampleAdapter : ActionAdapter := ("phantom" : String)

/-- Sample header-derived metadata with both headers absent. -/
def sampleMetadata : ActionMetadata := { blockchainIds := none, version := none }

/-- Sample headers with both consumed fields absent. -/
def sampleHeaders : ResponseHeaders := { xBlockchainIds := none, xActionVersion := none }

/-- A sample manifest with no `links` block. -/
def manifestNoLinks : NextAction :=
  { type := .action, title := "t", description := "d", icon := "icon.png",
    label := "l", disabled := none, error := none, links := none }

/-- A sample manifest whose `links.actions` array is present but empty. -/
def manifestEmptyLinks : NextAction :=
  { type := .action, title := "t", description := "d", icon := "icon.png",
    label := "l", disabled := none, error := none, links := some [] }

/-- The manifest of the spec's worked example: one linked action with href
`/next` and a single untyped parameter `amt`. -/
def manifestNext : NextAction :=
  { type := .action, title := "t", description := "d", icon := "icon.png",
    label := "l", disabled := none, error := none,
    links := some [{ href := "/next", label := "Go", type := none,
                     parameters := some [{ name := "amt", type := none }] }] }

/-- A sample manifest with one linked action whose href carries a non-http URI
scheme (`ftp:`). -/
def manifestFtp : NextAction :=
  { type := .action, title := "t", description := "d", icon := "icon.png",
    label := "l", disabled := none, error := none,
    links := some [{ href := "ftp://e/x", label := "Go", type := none,
                     parameters := none }] }

/-- A sample hydrated Action used to instantiate universally quantified
theorems. -/
def sampleAction : Action :=
  Action.hydrate "https://x/api/action" manifestNoLinks sampleMetadata
    sampleOkStrategy "parent-id"

/-- `sampleAction` with the throwing support strategy. -/
def sampleThrowingAction : Action :=
  Action.hydrate "https://x/api/action" manifestNoLinks sampleMetadata
    sampleThrowingStrategy "parent-id"

/-- A sample Action carrying a present-but-disabled live-data block. -/
def sampleDisabledLiveAction : Action :=
  mkAction "https://x/api/action" manifestNoLinks sampleMetadata sampleOkStrategy
    .notChained none (some { liveData := some { enabled := false, delayMs := none } })

/-- A sample Action carrying an enabled live-data block with a declared delay
of 200 ms. -/
def sampleShortDelayLiveAction : Action :=
  mkAction "https://x/api/action" manifestNoLinks sampleMetadata sampleOkStrategy
    .notChained none (some { liveData := some { enabled := true, delayMs := some 200 } })

/-- A sample successful chain POST response. -/
def sampleChainResponse : ChainHttpResponse :=
  { ok := true, headers := sampleHeaders, body := manifestNoLinks }

/-- A sample failed (non-2xx) chain POST response. -/
def sampleFailedChainResponse : ChainHttpResponse :=
  { ok := false, headers := sampleHeaders, body := manifestNoLinks }

/-- A sample successful GET response whose manifest declares type
`'completed'`, to exhibit the type overwrite on fetch. -/
def sampleCompletedGetResponse : GetHttpResponse :=
  { ok := true, headers := sampleHeaders,
    body := { response := { manifestNoLinks with type := .completed },
              dialectExperimental := none } }

/-- Every component the factory builds targets the href it was given. -/
theorem componentFactory_href (label href : String) (type : LinkedActionType)
    (parameters : Option (List TypedActionParameter)) :
    (componentFactory label href type parameters).href = href := by
  rcases parameters with _ | ⟨_ | ⟨p, _ | ⟨q, rest⟩⟩⟩
  · rfl
  · rfl
  · rcases h : p.type with _ | t
    · simp [componentFactory, h, AbstractActionComponent.href]
    · by_cases hm : t ∈ MULTI_VALUE_TYPES <;>
        simp [componentFactory, h, hm, AbstractActionComponent.href]
  · rfl

/-- C3: the component factory classifies parameter lists by length and declared
type: absent or empty lists give a Button; two or more parameters give a Form;
exactly one parameter gives a MultiValue when its declared type is in the
multi-value set and a SingleValue when its type is absent or not multi-value. -/
theorem componentFactory_classification (label href : String)
    (type : LinkedActionType) (parameters : Option (List TypedActionParameter)) :
    ((parameters = none ∨ parameters = some []) →
      componentFactory label href type parameters = .button label href type) ∧
    (∀ l, parameters = some l → 2 ≤ l.length →
      componentFactory label href type parameters = .form label href type l) ∧
    (∀ p t, parameters = some [p] → p.type = some t → t ∈ MULTI_VALUE_TYPES →
      componentFactory label href type parameters = .multiValue label href type [p]) ∧
    (∀ p, parameters = some [p] →
      (p.type = none ∨ ∀ t, p.type = some t → t ∉ MULTI_VALUE_TYPES) →
      componentFactory label href type parameters = .singleValue label href type [p]) := by
  refine ⟨?_, ?_, ?_, ?_⟩
  · rintro (rfl | rfl) <;> rfl
  · rintro (_ | ⟨p, _ | ⟨q, rest⟩⟩) rfl hlen
    · exact absurd hlen (by simp)
    · exact absurd hlen (by simp)
    · rfl
  · rintro p t rfl hpt hmem
    simp [componentFactory, hpt, hmem]
  · rintro p rfl hp
    rcases htype : p.type with _ | t
    · simp [componentFactory, htype]
    · rcases hp with hnone | hall
      · exact absurd htype (by simp [hnone])
      · simp [componentFactory, htype, hall t htype]

/-- Witness for `componentFactory_classification`: one checkbox parameter
yields a MultiValue component. -/
theorem componentFactory_classification_witness :
    componentFactory "l" "h" .transaction
      (some [{ name := "n", type := some .checkbox }])
      = .multiValue "l" "h" .transaction [{ name := "n", type := some .checkbox }] :=
  (componentFactory_classification "l" "h" .transaction _).2.2.1
    { name := "n", type := some .checkbox } .checkbox rfl rfl (by decide)

/-- C5: when the bound support strategy throws, `isSupported` returns the fixed
negative verdict with the generic message instead of propagating the
exception. -/
theorem isSupported_catches_strategy_exception (a : Action)
    (adapter : ActionAdapter) (e : String)
    (h : a._supportStrategy adapter = .error e) :
    a.isSupported adapter =
      { isSupported := false,
        message := some "Failed to check supportability, please contact your Blink client provider." } := by
  simp [Action.isSupported, h]

/-- Witness for `isSupported_catches_strategy_exception`: a concrete action
whose strategy throws. -/
theorem isSupported_catches_strategy_exception_witness :
    sampleThrowingAction.isSupported sampleAdapter =
      { isSupported := false,
        message := some "Failed to check supportability, please contact your Blink client provider." } :=
  isSupported_catches_strategy_exception sampleThrowingAction sampleAdapter
    "strategy blew up" rfl

/-- C6: `withUpdate` copies `url`, `data`, `metadata`, `chainMetadata`, `id`
and the experimental block unchanged; the support strategy is kept when the
update carries none and replaced when one is supplied. -/
theorem withUpdate_preserves_fields (a : Action) (s : ActionSupportStrategy) :
    (a.withUpdate none)._url = a._url ∧
    (a.withUpdate none)._data = a._data ∧
    (a.withUpdate none)._metadata = a._metadata ∧
    (a.withUpdate none)._chainMetadata = a._chainMetadata ∧
    (a.withUpdate none)._id = a._id ∧
    (a.withUpdate none)._experimental = a._experimental ∧
    (a.withUpdate none)._supportStrategy = a._supportStrategy ∧
    (a.withUpdate (some s))._url = a._url ∧
    (a.withUpdate (some s))._data = a._data ∧
    (a.withUpdate (some s))._metadata = a._metadata ∧
    (a.withUpdate (some s))._chainMetadata = a._chainMetadata ∧
    (a.withUpdate (some s))._id = a._id ∧
    (a.withUpdate (some s))._experimental = a._experimental ∧
    (a.withUpdate (some s))._supportStrategy = s :=
  ⟨rfl, rfl, rfl, rfl, rfl, rfl, rfl, rfl, rfl, rfl, rfl, rfl, rfl, rfl⟩

/-- C10: `fetchBlinkList` resolves to `{entries: []}` when the fetch throws,
when the response is not ok, and when parsing the body throws; it is a total
function, so the promise it models never rejects, and the hook's derived data
is always the entries list. -/
theorem fetchBlinkList_never_rejects (network : Except String BlinkListHttpResponse) :
    (∀ e, network = .error e → fetchBlinkList network = { entries := [] }) ∧
    (∀ resp, network = .ok resp → resp.ok = false →
      fetchBlinkList network = { entries := [] }) ∧
    (∀ resp e, network = .ok resp → resp.jsonBody = .error e →
      fetchBlinkList network = { entries := [] }) ∧
    useBlinkListData (some (fetchBlinkList network)) = (fetchBlinkList network).entries := by
  refine ⟨?_, ?_, ?_, rfl⟩
  · rintro e rfl
    rfl
  · rintro resp rfl hok
    simp [fetchBlinkList, hok]
  · rintro resp e rfl hjson
    rcases hok : resp.ok
    · simp [fetchBlinkList, hok]
    · simp [fetchBlinkList, hok, hjson]

/-- Witness for `fetchBlinkList_never_rejects`: a thrown network error
resolves to the empty list. -/
theorem fetchBlinkList_never_rejects_witness :
    fetchBlinkList (.error "network down") = { entries := [] } :=
  (fetchBlinkList_never_rejects (.error "network down")).1 "network down" rfl

/-- C1: chaining to a remote (post) link yields `null` both when the target
href fails the same-origin check against the Action's URL origin and when the
POST response has a non-2xx status. The embedding of `chain` is a pure total
function, so no exception can propagate and `a` itself is unchanged. -/
theorem chain_remote_failure_yields_null (a : Action) (nextHref : String)
    (chainData : Option String) (resp : ChainHttpResponse) (freshId : String)
    (h : isUrlSameOrigin (urlOrigin a.url) nextHref = false ∨ resp.ok = false) :
    (a.chain (.post nextHref) chainData resp freshId).2 = none := by
  rcases h with h | h
  · simp [Action.chain, h]
  · by_cases hso : isUrlSameOrigin (urlOrigin a.url) nextHref = true
    · simp [Action.chain, hso, h]
    · simp [Action.chain, hso]

/-- Witness for `chain_remote_failure_yields_null`: chaining `sampleAction`
(origin `https://x`) to `https://evil.com/a` yields `null`. -/
theorem chain_remote_failure_yields_null_witness :
    (sampleAction.chain (.post "https://evil.com/a") none sampleChainResponse
      "child-id").2 = none :=
  chain_remote_failure_yields_null sampleAction "https://evil.com/a" none
    sampleChainResponse "child-id" (Or.inl (by decide))

/-- C2 counterexample: the constructed actions list is not always non-empty,
and a manifest with `links.actions` present but empty does not fall back to a
placeholder Button — a present-but-empty array is truthy in JavaScript, so the
constructor maps over it and stores an empty list. -/
theorem actions_empty_counterexample :
    (mkAction "https://x/api/action" manifestEmptyLinks sampleMetadata
      sampleOkStrategy .notChained none none)._actions = [] := by
  decide

/-- C2 as amended: whenever `links?.actions` is absent or the manifest type is
`'completed'`, the actions list is exactly one Button whose href is the source
URL; when `links.actions` is present (and the type is not `'completed'`), the
list has one component per linked action — and so is empty exactly when the
present array is empty. -/
theorem actions_fallback_button (url : String) (data : NextAction)
    (metadata : ActionMetadata) (s : ActionSupportStrategy)
    (cm : ActionChainMetadata) (id : Option String)
    (exp : Option ExperimentalFeatures) :
    (data.type = .completed ∨ data.links = none →
      (mkAction url data metadata s cm id exp)._actions
        = [.button data.label url .transaction]) ∧
    (∀ l, data.type ≠ .completed → data.links = some l →
      (mkAction url data metadata s cm id exp)._actions.length = l.length) := by
  constructor
  · intro h
    simp [mkAction, h]
  · intro l hty hl
    simp [mkAction, hty, hl]

/-- Witness for `actions_fallback_button`: a manifest with no `links` block
yields exactly the placeholder Button targeting the source URL. -/
theorem actions_fallback_button_witness :
    (mkAction "https://x/api/action" manifestNoLinks sampleMetadata
      sampleOkStrategy .notChained none none)._actions
      = [.button "l" "https://x/api/action" .transaction] :=
  (actions_fallback_button "https://x/api/action" manifestNoLinks sampleMetadata
    sampleOkStrategy .notChained none none).1 (Or.inr rfl)

/-- C4: chaining an inline link issues no network request and yields an Action
chained with `isInline = true`, the parent's url, the embedded manifest as
data, the parent's support strategy, and the freshly generated id — distinct
from the parent's id under the hypothesis that the generated id is fresh
(`nanoid`, an external library, is assumed to not regenerate the parent's
id). -/
theorem chain_inline_no_network (a : Action) (nextData : NextAction)
    (chainData : Option String) (resp : ChainHttpResponse) (freshId : String)
    (hfresh : a._id ≠ some freshId) :
    (a.chain (.inline nextData) chainData resp freshId).1 = [] ∧
    ∃ b, (a.chain (.inline nextData) chainData resp freshId).2 = some b ∧
      b._chainMetadata = .chained true ∧ b.isChained = true ∧ b.isInline = true ∧
      b._url = a._url ∧ b._data = nextData ∧
      b._supportStrategy = a._supportStrategy ∧
      b._id = some freshId ∧ b._id ≠ a._id := by
  refine ⟨rfl, _, rfl, rfl, rfl, rfl, rfl, rfl, rfl, rfl, ?_⟩
  exact fun hEq => hfresh hEq.symm

/-- Witness for `chain_inline_no_network`: `sampleAction` chained to an inline
link with a fresh id. -/
theorem chain_inline_no_network_witness :
    (sampleAction.chain (.inline manifestNext) none sampleChainResponse
      "child-id").1 = [] ∧
    ∃ b, (sampleAction.chain (.inline manifestNext) none sampleChainResponse
      "child-id").2 = some b ∧
      b._chainMetadata = .chained true ∧ b.isChained = true ∧ b.isInline = true ∧
      b._url = sampleAction._url ∧ b._data = manifestNext ∧
      b._supportStrategy = sampleAction._supportStrategy ∧
      b._id = some "child-id" ∧ b._id ≠ sampleAction._id :=
  chain_inline_no_network sampleAction manifestNext none sampleChainResponse
    "child-id" (by decide)

/-- C7 counterexample: a present-but-disabled live-data block does not yield
`null` — the getter only checks for absence of the block, so `enabled: false`
comes back as `{enabled: false, delayMs: 1000}`. -/
theorem liveData_disabled_counterexample :
    sampleDisabledLiveAction.liveData_experimental
      = some { enabled := false, delayMs := 1000 } ∧
    sampleDisabledLiveAction.liveData_experimental ≠ none := by
  constructor <;> decide

/-- C7 as amended: `liveData_experimental` is `null` exactly when the
experimental live-data block is absent; when the block is present — enabled or
not — it returns the declared `enabled` flag and a delay of
`max(declared delayMs, 1000)`, which is `1000` when the declared delay is
absent or zero. -/
theorem liveData_experimental_spec (a : Action) :
    (a._experimental = none → a.liveData_experimental = none) ∧
    (∀ e, a._experimental = some e → e.liveData = none →
      a.liveData_experimental = none) ∧
    (∀ e ld, a._experimental = some e → e.liveData = some ld →
      a.liveData_experimental
        = some { enabled := ld.enabled,
                 delayMs := max (ld.delayMs.getD 0)
                   EXPERIMENTAL_LIVE_DATA_DEFAULT_DELAY_MS }) := by
  refine ⟨?_, ?_, ?_⟩
  · intro h
    simp [Action.liveData_experimental, h]
  · intro e he hld
    simp [Action.liveData_experimental, he, hld]
  · intro e ld he hld
    simp only [Action.liveData_experimental, he, hld]
    rcases hd : ld.delayMs with _ | d
    · simp [EXPERIMENTAL_LIVE_DATA_DEFAULT_DELAY_MS]
    · rcases Nat.eq_zero_or_pos d with rfl | hpos
      · simp [EXPERIMENTAL_LIVE_DATA_DEFAULT_DELAY_MS]
      · simp [Nat.pos_iff_ne_zero.mp hpos]

/-- Witness for `liveData_experimental_spec`: an enabled block declaring a
200 ms delay reports the 1000 ms floor. -/
theorem liveData_experimental_spec_witness :
    sampleShortDelayLiveAction.liveData_experimental
      = some { enabled := true, delayMs := 1000 } :=
  (liveData_experimental_spec sampleShortDelayLiveAction).2.2
    { liveData := some { enabled := true, delayMs := some 200 } }
    { enabled := true, delayMs := some 200 } rfl rfl

/-- C8 counterexample: the constructor's absoluteness test is the literal
prefix `http`, not "starts with a URI scheme": an href carrying the `ftp:`
scheme still gets the source origin prefixed instead of being used
unchanged. -/
theorem href_scheme_counterexample :
    startsWithUriScheme "ftp://e/x" = true ∧
    (mkAction "https://x/api/action" manifestFtp sampleMetadata sampleOkStrategy
      .notChained none none)._actions.map AbstractActionComponent.href
      = ["https://xftp://e/x"] ∧
    (mkAction "https://x/api/action" manifestFtp sampleMetadata sampleOkStrategy
      .notChained none none)._actions.map AbstractActionComponent.href
      ≠ ["ftp://e/x"] := by
  refine ⟨by decide, by decide, by decide⟩

/-- C8 as amended: a linked action's href is used unchanged when it starts
with the literal string `http`, and otherwise is resolved by prefixing the
origin of the Action's source URL (ignoring that URL's path). -/
theorem href_resolution (url : String) (data : NextAction)
    (metadata : ActionMetadata) (s : ActionSupportStrategy)
    (cm : ActionChainMetadata) (id : Option String)
    (exp : Option ExperimentalFeatures) (l : List LinkedAction)
    (hty : data.type ≠ .completed) (hl : data.links = some l) :
    (mkAction url data metadata s cm id exp)._actions.map AbstractActionComponent.href
      = l.map (fun action =>
          if strStartsWith action.href "http" then action.href
          else urlOrigin url ++ action.href) := by
  simp [mkAction, hty, hl, componentFactory_href]

/-- Witness for `href_resolution`: the spec's worked example — fetching
`https://x/api/action` with a linked action whose href is `/next` yields the
component href `https://x/next`. -/
theorem href_resolution_witness :
    (mkAction "https://x/api/action" manifestNext sampleMetadata sampleOkStrategy
      .notChained none none)._actions.map AbstractActionComponent.href
      = ["https://x/next"] :=
  (href_resolution "https://x/api/action" manifestNext sampleMetadata
    sampleOkStrategy .notChained none none _ (by decide) rfl).trans (by decide)

/-- C9: an Action produced by `fetch` (or by `refresh`, which reuses the same
path) has data type `'action'`: the fetched manifest's declared type,
`'completed'` included, is overwritten by the `{ ...data, type: 'action' }`
spread. -/
theorem fetch_overwrites_type (apiUrl : String) (s : ActionSupportStrategy)
    (resp : GetHttpResponse) (freshId : String) (a : Action) :
    (∀ act, Action.fetch apiUrl s resp freshId = .ok act → act.type = .action) ∧
    (∀ act, a.refresh resp = .ok act → act.type = .action) := by
  constructor <;> intro act h <;>
    simp only [Action.fetch, Action.refresh, Action.fetchImpl] at h <;>
    split at h
  · exact absurd h (by simp)
  · cases h
    rfl
  · exact absurd h (by simp)
  · cases h
    rfl

/-- Witness for `fetch_overwrites_type`: fetching a manifest that declares
type `'completed'` still yields an Action of type `'action'`. -/
theorem fetch_overwrites_type_witness :
    (mkAction "https://x/api/action"
      { sampleCompletedGetResponse.body.response with type := .action }
      (getActionMetadata sampleCompletedGetResponse.headers) sampleOkStrategy
      .notChained (some "fresh-id") none).type = .action :=
  (fetch_overwrites_type "https://x/api/action" sampleOkStrategy
    sampleCompletedGetResponse "fresh-id" sampleAction).1 _ rfl

end Blinks
